import Mathlib

set_option maxHeartbeats 1000000

/-!
Verification development for the MinerCo progression and economy engine
(`src/app.py`).  The Python handlers are shallowly embedded as pure Lean
functions over an explicit player-record structure: Python dicts become
association lists with faithful get/set semantics, floats become rationals,
wall-clock time and every random draw become explicit parameters, and each
HTTP handler becomes a function returning a classified result together with
the (possibly updated) record.
-/

namespace MinerCo

/-- Python dict read with a default, `d.get(k, dflt)`. -/
def lookupD {α : Type} (d : List (String × α)) (k : String) (dflt : α) : α :=
  (List.lookup k d).getD dflt

/-- Python dict write `d[k] = v`: replaces the binding of `k` in place when
present, otherwise appends the new binding at the end. -/
def setKey {α : Type} : List (String × α) → String → α → List (String × α)
  | [], k, v => [(k, v)]
  | (k', v') :: t, k, v => if k' = k then (k, v) :: t else (k', v') :: setKey t k v

/-- Python `int()` applied to a rational: truncation toward zero. -/
def pyInt (q : ℚ) : Int := if 0 ≤ q then ⌊q⌋ else ⌈q⌉

/-- Python `str.upper()`: uppercase every character. -/
def pyUpper (s : String) : String := String.mk (s.data.map Char.toUpper)

/-- Python `str.strip()`: drop leading and trailing whitespace. -/
def pyStrip (s : String) : String :=
  String.mk (((s.data.dropWhile Char.isWhitespace).reverse.dropWhile
    Char.isWhitespace).reverse)

/-- An active-powerup entry `{mult, until}` (`active_powerups` values). -/
structure Powerup where
  mult : ℚ
  untilMs : Int
deriving DecidableEq, Repr

/-- A pet (companion) record `{id, name, rarity, effect}`. -/
structure Pet where
  id : String
  name : String
  rarity : String
  effect : List (String × ℚ)
deriving DecidableEq, Repr

/-- The `stats` JSON column of a `User`. -/
structure Stats where
  oresMined : Int
  crits : Int
  silverEarned : Int
  silverSpent : Int
  total : List (String × Int)
deriving DecidableEq, Repr

/-- The mutable player record: the game-relevant columns of the `User` model. -/
structure User where
  silver : Int
  pickaxe : String
  sword : String
  inventory : List (String × Int)
  active_powerups : List (String × Powerup)
  pets : List Pet
  used_codes : List String
  achievements : List String
  stats : Stats
  last_daily : Int
  is_admin : Bool
deriving DecidableEq, Repr

/-- Ore identifiers, in catalog order (`ORES`). -/
def ORES : List String :=
  ["coal", "copper", "bronze", "silver", "gold", "diamond", "emerald", "rainbow", "goldrush"]

/-- Per-unit sale values (`ORE_VALUES`). -/
def ORE_VALUES : List (String × Int) :=
  [("coal", 1), ("copper", 2), ("bronze", 3), ("silver", 5), ("gold", 8),
   ("diamond", 15), ("emerald", 30), ("rainbow", 20), ("goldrush", 0)]

/-- Required pickaxe tier per ore (`ORE_REQ`). -/
def ORE_REQ : List (String × String) :=
  [("coal", "coal"), ("copper", "copper"), ("bronze", "bronze"), ("silver", "silver"),
   ("gold", "gold"), ("diamond", "diamond"), ("emerald", "emerald"),
   ("rainbow", "diamond"), ("goldrush", "diamond")]

/-- Pickaxe upgrade costs (`PICKAXE_COSTS`). -/
def PICKAXE_COSTS : List (String × List (String × Int)) :=
  [("coal", [("coal", 10)]),
   ("copper", [("coal", 20)]),
   ("bronze", [("copper", 30)]),
   ("silver", [("bronze", 40)]),
   ("gold", [("silver", 50)]),
   ("diamond", [("gold", 60)]),
   ("emerald", [("diamond", 100)])]

/-- A purchasable powerup definition `{key, mult, secs}`. -/
structure PowerupDef where
  key : String
  mult : ℚ
  secs : Int
deriving DecidableEq, Repr

/-- The powerup catalog (`POWERUPS`). -/
def POWERUPS : List (String × PowerupDef) :=
  [("2x Strength", ⟨"strength", 2, 120⟩), ("2x Luck", ⟨"luck", 2, 120⟩)]

/-- Sword crit chances (`SWORDS`). -/
def SWORDS : List (String × ℚ) :=
  [("none", 0), ("iron", 5), ("steel", 12), ("mythril", 20)]

/-- The companion pool (`PET_POOL`). -/
def PET_POOL : List Pet :=
  [⟨"mole", "Mole", "common", [("strength", 5/4)]⟩,
   ⟨"cat", "Lucky Cat", "rare", [("luck", 3/2)]⟩,
   ⟨"parrot", "Parrot", "uncommon", [("sell", 11/10)]⟩,
   ⟨"fox", "Amber Fox", "epic", [("crit", 2/25)]⟩,
   ⟨"tortoise", "Tortoise", "common", [("sustain", 1)]⟩]

/-- A code reward description: the keys the reward dicts in `CODE_REWARDS`
may carry (`silver`, `item`, `powerup`, `freepet`, `event`, `message`). -/
structure Reward where
  silver : Option Int
  item : Option (List (String × Int))
  powerup : Option String
  freepet : Bool
  event : Option String
  message : String
deriving DecidableEq, Repr

/-- The redeemable-code reward table (`CODE_REWARDS`). -/
def CODE_REWARDS : List (String × Reward) :=
  [("WELCOME", ⟨some 200, none, none, false, none, "Welcome bonus: +200 Silver"⟩),
   ("LUCKY", ⟨none, none, some "2x Luck", false, none, "+2x Luck (120s)"⟩),
   ("SHINY", ⟨none, some [("diamond", 5)], none, false, none, "Diamonds x5"⟩),
   ("FREEPET", ⟨none, none, none, true, none, "Free pet spin"⟩),
   ("GOLDRUSH", ⟨none, none, none, false, some "gold", "Gold Rush for 3 min!"⟩)]

/-- The admin shared secret (`ADMIN_CODE`). -/
def ADMIN_CODE : String := "danielis67"

/-- `tier_index`: position of an ore in the catalog order. -/
def tier_index (ore : String) : Nat := List.indexOf ore ORES

/-- `can_mine`: the pickaxe tier reaches the ore's required tier. -/
def can_mine (u : User) (ore : String) : Prop :=
  tier_index (lookupD ORE_REQ ore "") ≤ tier_index u.pickaxe

instance (u : User) (ore : String) : Decidable (can_mine u ore) := by
  unfold can_mine; infer_instance

/-- `power_mult`: effective multiplier for a named effect at time `now`. -/
def power_mult (u : User) (key : String) (now : Int) : ℚ :=
  let m : ℚ := 1
  let m := match List.lookup key u.active_powerups with
    | some p => if now < p.untilMs then m * p.mult else m
    | none => m
  let m := if key = "strength" then
      u.pets.foldl (fun acc pt => acc * lookupD pt.effect "strength" 1) m
    else m
  let m := if key = "luck" then
      u.pets.foldl (fun acc pt => acc * lookupD pt.effect "luck" 1) m
    else m
  m

/-- `sell_mult`: product of the pets' sale-price contributions. -/
def sell_mult (u : User) : ℚ :=
  u.pets.foldl (fun acc pt => acc * lookupD pt.effect "sell" 1) 1

/-- `crit_chance`: sword base chance plus per-pet additive contributions. -/
def crit_chance (u : User) : ℚ :=
  u.pets.foldl (fun acc pt => acc + lookupD pt.effect "crit" 0 * 100)
    (lookupD SWORDS u.sword 0)

/-- `add_ore`: add `qty` of `ore` to inventory and bump mining statistics. -/
def add_ore (u : User) (ore : String) (qty : Int) : User :=
  let inv := setKey u.inventory ore (lookupD u.inventory ore 0 + qty)
  let st := u.stats
  let tot := if (List.lookup ore st.total).isSome then
      setKey st.total ore (lookupD st.total ore 0 + qty)
    else st.total
  {u with inventory := inv,
          stats := {st with oresMined := st.oresMined + qty, total := tot}}

/-- Classified failures of the engine's handlers. -/
inductive Err where
  | UnknownResource
  | LockedResource
  | UnknownTier
  | InsufficientResources
  | InsufficientCurrency
  | UnknownModifier
  | CodeRequired
  | CodeAlreadyUsed
  | InvalidCode
  | Cooldown
  | Forbidden
deriving DecidableEq, Repr

/-- Success payloads of the engine's handlers. -/
inductive Outcome where
  | mined
  | sold (gain : Int)
  | alreadyOwned
  | purchased
  | activated
  | newPet (name : String)
  | duplicatePet (name : String)
  | redeemed (message : String)
  | dailyClaimed
  | adminUnlocked
  | moneyGranted
  | powerupsGranted
deriving DecidableEq, Repr

instance : DecidableEq (Except Err Outcome) := fun a b =>
  match a, b with
  | .error x, .error y =>
    if h : x = y then .isTrue (by rw [h]) else .isFalse (by simp [h])
  | .error _, .ok _ => .isFalse (by simp)
  | .ok _, .error _ => .isFalse (by simp)
  | .ok x, .ok y =>
    if h : x = y then .isTrue (by rw [h]) else .isFalse (by simp [h])

/-- `api_mine`: the Mine handler.  `r` is the value of `random.random()`
used for the crit roll and `b` the `randint(0,6)` draw for rainbow ore. -/
def api_mine (u : User) (ore : String) (r : ℚ) (b : Nat) (now : Int) :
    Except Err Outcome × User :=
  if ore ∉ ORES then (.error .UnknownResource, u)
  else if ¬ can_mine u ore then (.error .LockedResource, u)
  else
    let qty := max 1 (pyInt (1 * power_mult u "strength" now))
    let crit := r * 100 < crit_chance u
    let qty := if crit then qty * 2 else qty
    let u' := if crit then {u with stats := {u.stats with crits := u.stats.crits + 1}} else u
    let u'' :=
      if ore = "rainbow" then add_ore u' ((ORES.take 7).getD b "coal") qty
      else if ore = "goldrush" then add_ore u' "gold" (qty * 2)
      else add_ore u' ore qty
    (.ok .mined, u'')

/-- One iteration of the `sell_all` sweep over `ORE_VALUES.items()`. -/
def sellStep (acc : List (String × Int) × Int) (ov : String × Int) :
    List (String × Int) × Int :=
  if ov.1 = "goldrush" then acc
  else if 0 < lookupD acc.1 ov.1 0 then
    (setKey acc.1 ov.1 0, acc.2 + lookupD acc.1 ov.1 0 * ov.2)
  else acc

/-- `sell_all`: the SellAll handler. -/
def sell_all (u : User) : Except Err Outcome × User :=
  let r := ORE_VALUES.foldl sellStep (u.inventory, 0)
  let gain := pyInt ((r.2 : ℚ) * sell_mult u)
  (.ok (.sold gain),
   {u with inventory := r.1,
           silver := u.silver + gain,
           stats := {u.stats with silverEarned := u.stats.silverEarned + gain}})

/-- `shop_pickaxe`: the UpgradeEquipment handler. -/
def shop_pickaxe (u : User) (tier : String) : Except Err Outcome × User :=
  match List.lookup tier PICKAXE_COSTS with
  | none => (.error .UnknownTier, u)
  | some cost =>
    if tier_index tier ≤ tier_index u.pickaxe then (.ok .alreadyOwned, u)
    else if ∃ ov ∈ cost, lookupD u.inventory ov.1 0 < ov.2 then
      (.error .InsufficientResources, u)
    else
      let inv := cost.foldl (fun inv ov => setKey inv ov.1 (lookupD inv ov.1 0 - ov.2))
        u.inventory
      (.ok .purchased, {u with inventory := inv, pickaxe := tier})

/-- `shop_powerup`: the ActivateModifier handler. -/
def shop_powerup (u : User) (name : String) (now : Int) : Except Err Outcome × User :=
  match List.lookup name POWERUPS with
  | none => (.error .UnknownModifier, u)
  | some eff =>
    let price : Int := if name = "2x Strength" then 50 else 75
    if u.silver < price then (.error .InsufficientCurrency, u)
    else
      let u' := {u with silver := u.silver - price,
                        stats := {u.stats with silverSpent := u.stats.silverSpent + price}}
      let ap' := setKey u'.active_powerups eff.key ⟨eff.mult, now + eff.secs * 1000⟩
      (.ok .activated, {u' with active_powerups := ap'})

/-- `pets_spin`: the RollCompanion handler.  `pet` is the companion produced
by the two weighted random draws. -/
def pets_spin (u : User) (free : Bool) (pet : Pet) : Except Err Outcome × User :=
  if u.silver < 150 ∧ free = false then (.error .InsufficientCurrency, u)
  else
    let u' := if free then u
      else {u with silver := u.silver - 150,
                   stats := {u.stats with silverSpent := u.stats.silverSpent + 150}}
    if ∃ p ∈ u'.pets, p.id = pet.id then
      (.ok (.duplicatePet pet.name), {u' with silver := u'.silver + 50})
    else
      (.ok (.newPet pet.name), {u' with pets := u'.pets ++ [pet]})

/-- Install the named powerup from the catalog as an active modifier
(the modifier-grant step of a code reward). -/
def applyPowerup (u : User) (name : String) (now : Int) : User :=
  match List.lookup name POWERUPS with
  | some eff =>
    let ap := setKey u.active_powerups eff.key ⟨eff.mult, now + eff.secs * 1000⟩
    {u with active_powerups := ap}
  | none => u

/-- `codes_redeem`: the RedeemCode handler. -/
def codes_redeem (u : User) (code : String) (now : Int) : Except Err Outcome × User :=
  let raw := pyStrip (pyUpper code)
  if raw = "" then (.error .CodeRequired, u)
  else if raw ∈ u.used_codes then (.error .CodeAlreadyUsed, u)
  else
    match List.lookup raw CODE_REWARDS with
    | none => (.error .InvalidCode, u)
    | some reward =>
      let u1 :=
        if reward.silver.getD 0 ≠ 0 then
          {u with silver := u.silver + reward.silver.getD 0,
                  stats := {u.stats with
                    silverEarned := u.stats.silverEarned + reward.silver.getD 0}}
        else u
      let u2 :=
        if reward.item.getD [] ≠ [] then
          let inv2 := (reward.item.getD []).foldl
            (fun inv kv => setKey inv kv.1 (lookupD inv kv.1 0 + kv.2)) u1.inventory
          {u1 with inventory := inv2}
        else u1
      let u3 :=
        if reward.powerup.getD "" ≠ "" then applyPowerup u2 (reward.powerup.getD "") now
        else u2
      (.ok (.redeemed reward.message), {u3 with used_codes := u3.used_codes ++ [raw]})

/-- Milliseconds in a day (`day_ms`). -/
def day_ms : Int := 24 * 60 * 60 * 1000

/-- `daily_claim`: the ClaimDaily handler.  `pick` is the random choice of
the bonus powerup (`true` for 2x Strength, `false` for 2x Luck). -/
def daily_claim (u : User) (pick : Bool) (now : Int) : Except Err Outcome × User :=
  if u.last_daily ≠ 0 ∧ now - u.last_daily < day_ms then (.error .Cooldown, u)
  else
    let u1 := {u with last_daily := now}
    let u2 := {u1 with silver := u1.silver + 200,
                       stats := {u1.stats with silverEarned := u1.stats.silverEarned + 200}}
    let eff := lookupD POWERUPS (if pick then "2x Strength" else "2x Luck") ⟨"strength", 2, 120⟩
    let ap2 := setKey u2.active_powerups eff.key ⟨eff.mult, now + 60 * 1000⟩
    (.ok .dailyClaimed, {u2 with active_powerups := ap2})

/-- `admin_login`: the grant-admin handler. -/
def admin_login (u : User) (code : String) : Except Err Outcome × User :=
  if code = ADMIN_CODE then (.ok .adminUnlocked, {u with is_admin := true})
  else (.error .Forbidden, u)

/-- `admin_money`: the grant-currency handler. -/
def admin_money (u : User) : Except Err Outcome × User :=
  if u.is_admin then (.ok .moneyGranted, {u with silver := u.silver + 999999})
  else (.error .Forbidden, u)

/-- `admin_powerups`: the grant-all-modifiers handler. -/
def admin_powerups (u : User) (now : Int) : Except Err Outcome × User :=
  if u.is_admin then
    let ap := setKey (setKey u.active_powerups "strength" ⟨2, now + 10 * 60 * 1000⟩)
      "luck" ⟨2, now + 10 * 60 * 1000⟩
    (.ok .powerupsGranted, {u with active_powerups := ap})
  else (.error .Forbidden, u)

/-- An engine action together with its parameters and random draws. -/
inductive Action where
  | mine (ore : String) (r : ℚ) (b : Nat)
  | sellAll
  | upgradePickaxe (tier : String)
  | buyPowerup (name : String)
  | petSpin (free : Bool) (pet : Pet)
  | redeemCode (code : String)
  | claimDaily (pick : Bool)
  | adminLogin (code : String)
  | adminMoney
  | adminPowerups

/-- Dispatch one action against a record at time `now`. -/
def step (now : Int) (a : Action) (u : User) : Except Err Outcome × User :=
  match a with
  | .mine ore r b => api_mine u ore r b now
  | .sellAll => sell_all u
  | .upgradePickaxe tier => shop_pickaxe u tier
  | .buyPowerup name => shop_powerup u name now
  | .petSpin free pet => pets_spin u free pet
  | .redeemCode code => codes_redeem u code now
  | .claimDaily pick => daily_claim u pick now
  | .adminLogin code => admin_login u code
  | .adminMoney => admin_money u
  | .adminPowerups => admin_powerups u now

/-- Run a sequence of timestamped actions against a record. -/
def runSeq : List (Int × Action) → User → User
  | [], u => u
  | (t, a) :: rest, u => runSeq rest (step t a u).2

/-- The default (freshly created) player record. -/
def freshUser : User :=
  { silver := 0
    pickaxe := "coal"
    sword := "none"
    inventory := [("coal", 10), ("copper", 0), ("bronze", 0), ("silver", 0), ("gold", 0),
                  ("diamond", 0), ("emerald", 0), ("rainbow", 0), ("goldrush", 0)]
    active_powerups := []
    pets := []
    used_codes := []
    achievements := []
    stats := { oresMined := 0, crits := 0, silverEarned := 0, silverSpent := 0,
               total := [("coal", 0), ("copper", 0), ("bronze", 0), ("silver", 0),
                         ("gold", 0), ("diamond", 0), ("emerald", 0), ("rainbow", 0)] }
    last_daily := 0
    is_admin := false }

/-- Modelled from the spec: the effective multiplier for an effect name is
the product of (a) the live active-modifier factor (1 when the entry is
absent or expired) and (b) one multiplicative factor per owned companion
that defines the effect (1 for companions that do not define it). -/
def specEffectiveMultiplier (u : User) (key : String) (now : Int) : ℚ :=
  (match List.lookup key u.active_powerups with
   | some p => if now < p.untilMs then p.mult else 1
   | none => 1) *
  u.pets.foldl (fun acc pt => acc * lookupD pt.effect key 1) 1

/-- Modelled from the spec: the live active-modifier factor alone ((a) of
`specEffectiveMultiplier`). -/
def specModifierFactor (u : User) (key : String) (now : Int) : ℚ :=
  match List.lookup key u.active_powerups with
  | some p => if now < p.untilMs then p.mult else 1
  | none => 1

/-- A record owning only the Parrot companion (which defines the sell
effect with factor 11/10). -/
def parrotUser : User :=
  {freshUser with pets := [⟨"parrot", "Parrot", "uncommon", [("sell", 11/10)]⟩]}

/-- The claimed pre-multiplier sale gain of one sweep entry list over a
given inventory. -/
def gainSum (inv : List (String × Int)) : List (String × Int) → Int
  | [] => 0
  | ov :: t => (if ov.1 = "goldrush" then 0 else lookupD inv ov.1 0 * ov.2) + gainSum inv t

/-- Modelled from the spec: the claimed pre-multiplier sale total — the sum
over every ore with a positive sale value of held quantity times catalog
value. -/
def specSellTotal (u : User) : Int :=
  ORE_VALUES.foldl
    (fun acc ov => if 0 < ov.2 then acc + lookupD u.inventory ov.1 0 * ov.2 else acc) 0

/-! ### Concrete records for witnesses -/

/-- A record holding exactly 20 coal. -/
def coalUser : User := {freshUser with inventory := [("coal", 20)]}

/-- The Mole companion from the pool. -/
def molePet : Pet := ⟨"mole", "Mole", "common", [("strength", 5/4)]⟩

/-- A record with 200 silver that already owns the Mole. -/
def moleOwner : User := {freshUser with silver := 200, pets := [molePet]}

/-- A record with a live 2x strength modifier expiring at 120000 ms. -/
def boostedUser : User :=
  {freshUser with active_powerups := [("strength", ⟨2, 120000⟩)]}

/-! ### Dictionary lemmas -/

theorem lookup_setKey_self {α : Type} (d : List (String × α)) (k : String) (v : α) :
    List.lookup k (setKey d k v) = some v := by
  induction d with
  | nil => simp [setKey, List.lookup]
  | cons h t ih =>
    obtain ⟨k', v'⟩ := h
    by_cases hk : k' = k
    · subst hk; simp [setKey, List.lookup]
    · simp [setKey, hk, List.lookup, beq_false_of_ne (Ne.symm hk), ih]

theorem lookup_setKey_ne {α : Type} (d : List (String × α)) (k k' : String) (v : α)
    (h : k' ≠ k) : List.lookup k' (setKey d k v) = List.lookup k' d := by
  induction d with
  | nil => simp [setKey, List.lookup, beq_false_of_ne h]
  | cons hd t ih =>
    obtain ⟨k₀, v₀⟩ := hd
    by_cases hk : k₀ = k
    · subst hk; simp [setKey, List.lookup, beq_false_of_ne h]
    · by_cases hk' : k' = k₀
      · subst hk'; simp [setKey, hk, List.lookup]
      · simp [setKey, hk, List.lookup, beq_false_of_ne hk', ih]

theorem lookupD_setKey_self {α : Type} (d : List (String × α)) (k : String) (v dflt : α) :
    lookupD (setKey d k v) k dflt = v := by
  simp [lookupD, lookup_setKey_self]

theorem lookupD_setKey_ne {α : Type} (d : List (String × α)) (k k' : String) (v dflt : α)
    (h : k' ≠ k) : lookupD (setKey d k v) k' dflt = lookupD d k' dflt := by
  simp [lookupD, lookup_setKey_ne _ _ _ _ h]

theorem mem_of_lookup_eq_some {α : Type} {d : List (String × α)} {k : String} {v : α}
    (h : List.lookup k d = some v) : (k, v) ∈ d := by
  induction d with
  | nil => simp [List.lookup] at h
  | cons hd t ih =>
    obtain ⟨k₀, v₀⟩ := hd
    by_cases hk : k = k₀
    · subst hk
      simp [List.lookup] at h
      simp [h]
    · simp [List.lookup, beq_false_of_ne hk] at h
      exact List.mem_cons_of_mem _ (ih h)

theorem lookupD_nonneg {d : List (String × Int)} (h : ∀ kv ∈ d, 0 ≤ kv.2)
    (k : String) : 0 ≤ lookupD d k 0 := by
  unfold lookupD
  cases hl : List.lookup k d with
  | none => simp
  | some v => simpa using h _ (mem_of_lookup_eq_some hl)

/-! ### Truncation and fold lemmas -/

theorem pyInt_eq_floor {q : ℚ} (h : 0 ≤ q) : pyInt q = ⌊q⌋ := by
  simp [pyInt, h]

theorem max_one_pyInt (q : ℚ) : max 1 (pyInt q) = max 1 ⌊q⌋ := by
  unfold pyInt
  split
  · rfl
  · rename_i h
    push_neg at h
    have hc : ⌈q⌉ ≤ 0 := Int.ceil_le.mpr (by exact_mod_cast h.le)
    have hf : ⌊q⌋ ≤ 0 := le_trans (Int.floor_le_ceil q) hc
    rw [max_eq_left (by omega), max_eq_left (by omega)]

theorem foldl_mul_shift {α : Type} (f : α → ℚ) (l : List α) (m : ℚ) :
    l.foldl (fun acc x => acc * f x) m = m * l.foldl (fun acc x => acc * f x) 1 := by
  induction l generalizing m with
  | nil => simp
  | cons x t ih => rw [List.foldl_cons, List.foldl_cons, ih, ih (1 * f x)]; ring

theorem foldl_mul_nonneg {α : Type} (f : α → ℚ) (l : List α) (m : ℚ)
    (hm : 0 ≤ m) (hf : ∀ x ∈ l, 0 ≤ f x) :
    0 ≤ l.foldl (fun acc x => acc * f x) m := by
  induction l generalizing m with
  | nil => simpa
  | cons x t ih =>
    rw [List.foldl_cons]
    exact ih _ (mul_nonneg hm (hf x (List.mem_cons_self x t)))
      (fun y hy => hf y (List.mem_cons_of_mem x hy))

theorem sell_mult_nonneg {u : User} (h : ∀ pt ∈ u.pets, ∀ e ∈ pt.effect, 0 ≤ e.2) :
    0 ≤ sell_mult u := by
  unfold sell_mult
  refine foldl_mul_nonneg _ _ 1 zero_le_one (fun pt hpt => ?_)
  unfold lookupD
  cases hl : List.lookup "sell" pt.effect with
  | none => simp
  | some v => simpa using h pt hpt _ (mem_of_lookup_eq_some hl)

theorem deduct_single (inv : List (String × Int)) (o0 : String) (n0 : Int) (o : String) :
    lookupD (setKey inv o0 (lookupD inv o0 0 - n0)) o 0 =
      lookupD inv o 0 - lookupD [(o0, n0)] o 0 := by
  by_cases h : o = o0
  · subst h
    rw [lookupD_setKey_self]
    simp [lookupD, List.lookup]
  · rw [lookupD_setKey_ne _ _ _ _ _ h]
    simp [lookupD, List.lookup, beq_false_of_ne h]

/-! ### Claim theorems -/

/-- Claim C2: UpgradeEquipment returns an "already owned" no-op when the
requested catalog tier is at or below the current tier; fails
InsufficientResources with the record unchanged when any required ore
quantity exceeds current holdings; otherwise deducts exactly every required
ore quantity and sets the equipment tier to the requested tier. -/
theorem c2_upgrade_equipment (u : User) (tier : String) (cost : List (String × Int))
    (hc : List.lookup tier PICKAXE_COSTS = some cost) :
    (tier_index tier ≤ tier_index u.pickaxe →
        shop_pickaxe u tier = (.ok .alreadyOwned, u)) ∧
    (tier_index u.pickaxe < tier_index tier →
      ((∃ ov ∈ cost, lookupD u.inventory ov.1 0 < ov.2) →
          shop_pickaxe u tier = (.error .InsufficientResources, u)) ∧
      ((∀ ov ∈ cost, ov.2 ≤ lookupD u.inventory ov.1 0) →
          (shop_pickaxe u tier).1 = .ok .purchased ∧
          (shop_pickaxe u tier).2.pickaxe = tier ∧
          (∀ o, lookupD (shop_pickaxe u tier).2.inventory o 0 =
              lookupD u.inventory o 0 - lookupD cost o 0))) := by
  have hmem := mem_of_lookup_eq_some hc
  constructor
  · intro hle
    simp [shop_pickaxe, hc, hle]
  · intro hlt
    have hnle : ¬ tier_index tier ≤ tier_index u.pickaxe := by omega
    constructor
    · intro hex
      simp [shop_pickaxe, hc, hnle, hex]
    · intro hall
      have hnex : ¬ ∃ ov ∈ cost, lookupD u.inventory ov.1 0 < ov.2 := by
        push_neg
        intro ov hov
        exact hall ov hov
      simp only [shop_pickaxe, hc, if_neg hnle, if_neg hnex]
      refine ⟨trivial, trivial, ?_⟩
      simp only [PICKAXE_COSTS, List.mem_cons, List.not_mem_nil, or_false,
        Prod.mk.injEq] at hmem
      rcases hmem with ⟨-, rfl⟩ | ⟨-, rfl⟩ | ⟨-, rfl⟩ | ⟨-, rfl⟩ | ⟨-, rfl⟩ |
        ⟨-, rfl⟩ | ⟨-, rfl⟩ <;>
        (intro o; simpa [List.foldl] using deduct_single u.inventory _ _ o)

/-- Claim C9: redeeming the valid, not-yet-used code "GOLDRUSH" succeeds and
appends "GOLDRUSH" to used-codes while changing no other part of the record;
the advertised Gold Rush event reward is not applied server-side. -/
theorem c9_goldrush_marks_code_only (u : User) (now : Int)
    (h : "GOLDRUSH" ∉ u.used_codes) :
    codes_redeem u "GOLDRUSH" now =
      (.ok (.redeemed "Gold Rush for 3 min!"),
       {u with used_codes := u.used_codes ++ ["GOLDRUSH"]}) := by
  have hraw : pyStrip (pyUpper "GOLDRUSH") = "GOLDRUSH" := by decide
  have h0 : ("GOLDRUSH" : String) ≠ "" := by decide
  have hlook : List.lookup "GOLDRUSH" CODE_REWARDS =
      some ⟨none, none, none, false, some "gold", "Gold Rush for 3 min!"⟩ := by decide
  simp only [codes_redeem, hraw, if_neg h0, if_neg h, hlook]
  simp

/-- Claim C10: a successful ClaimDaily overwrites the randomly chosen
effect's active-modifier entry with multiplier 2 and expiry now + 60
seconds, regardless of any existing entry for that effect; an existing
longer-lived modifier for that effect is therefore truncated. -/
theorem c10_daily_truncates_modifier (u : User) (pick : Bool) (now : Int)
    (h : u.last_daily = 0 ∨ day_ms ≤ now - u.last_daily) :
    (daily_claim u pick now).1 = .ok .dailyClaimed ∧
    (daily_claim u pick now).2.active_powerups =
      setKey u.active_powerups (if pick then "strength" else "luck")
        ⟨2, now + 60 * 1000⟩ ∧
    List.lookup (if pick then "strength" else "luck")
        (daily_claim u pick now).2.active_powerups = some ⟨2, now + 60 * 1000⟩ ∧
    (daily_claim u pick now).2.last_daily = now ∧
    (daily_claim u pick now).2.silver = u.silver + 200 := by
  have hg : ¬ (u.last_daily ≠ 0 ∧ now - u.last_daily < day_ms) := by
    rcases h with h | h
    · simp [h]
    · push_neg; intro _; omega
  cases pick <;>
    simp [daily_claim, hg, lookupD, POWERUPS, List.lookup, lookup_setKey_self]


/-- Characterization of `power_mult`: the live-modifier factor times the
companion fold, the latter only for the strength and luck effects. -/
theorem power_mult_eq (u : User) (key : String) (now : Int) :
    power_mult u key now = specModifierFactor u key now *
      (if key = "strength" then
          u.pets.foldl (fun acc pt => acc * lookupD pt.effect "strength" 1) 1
        else if key = "luck" then
          u.pets.foldl (fun acc pt => acc * lookupD pt.effect "luck" 1) 1
        else 1) := by
  by_cases hs : key = "strength"
  · subst hs
    have h2 : ("strength" : String) ≠ "luck" := by decide
    simp only [power_mult, specModifierFactor, if_neg h2, if_pos rfl]
    rw [foldl_mul_shift]
    cases List.lookup "strength" u.active_powerups with
    | none => norm_num
    | some p => by_cases ht : now < p.untilMs <;> simp [ht]
  · by_cases hl : key = "luck"
    · subst hl
      simp only [power_mult, specModifierFactor, if_neg hs, if_pos rfl]
      rw [foldl_mul_shift]
      cases List.lookup "luck" u.active_powerups with
      | none => norm_num
      | some p => by_cases ht : now < p.untilMs <;> simp [ht]
    · simp only [power_mult, specModifierFactor, if_neg hs, if_neg hl, mul_one]
      cases List.lookup key u.active_powerups with
      | none => norm_num
      | some p => by_cases ht : now < p.untilMs <;> simp [ht]

/-- Claim C5 counterexample: for the effect name "sell", `power_mult` does
not include the companion contributions the claim demands, so it differs
from the claimed product on a record owning the Parrot. -/
theorem c5_counterexample :
    power_mult parrotUser "sell" 0 ≠ specEffectiveMultiplier parrotUser "sell" 0 := by
  have hss : ("sell" : String) ≠ "strength" := by decide
  have hsl : ("sell" : String) ≠ "luck" := by decide
  have h1 : power_mult parrotUser "sell" 0 = 1 := by
    rw [power_mult_eq, if_neg hss, if_neg hsl, mul_one]
    norm_num [specModifierFactor, parrotUser, freshUser, List.lookup]
  have h2 : specEffectiveMultiplier parrotUser "sell" 0 = 11 / 10 := by
    norm_num [specEffectiveMultiplier, parrotUser, freshUser, List.lookup,
      List.foldl, lookupD, beq_self_eq_true]
  rw [h1, h2]
  norm_num

/-- Claim C5 (amended): for the effect names "strength" and "luck",
`power_mult` equals the claimed product of the live-modifier factor and one
factor per owned companion; for every other effect name it equals the
live-modifier factor alone; with no contributing source the result is 1,
and an expired entry never contributes. -/
theorem c5_effective_multiplier (u : User) (key : String) (now : Int) :
    ((key = "strength" ∨ key = "luck") →
        power_mult u key now = specEffectiveMultiplier u key now) ∧
    (key ≠ "strength" → key ≠ "luck" →
        power_mult u key now = specModifierFactor u key now) ∧
    (List.lookup key u.active_powerups = none → u.pets = [] →
        power_mult u key now = 1) ∧
    (∀ p, List.lookup key u.active_powerups = some p → p.untilMs ≤ now →
        power_mult u key now = power_mult {u with active_powerups := []} key now) := by
  refine ⟨?_, ?_, ?_, ?_⟩
  · rintro (rfl | rfl) <;>
      rw [power_mult_eq] <;>
      simp [specEffectiveMultiplier, specModifierFactor]
  · intro hs hl
    rw [power_mult_eq, if_neg hs, if_neg hl, mul_one]
  · intro hap hp
    rw [power_mult_eq]
    simp [specModifierFactor, hap, hp]
  · intro p hap ht
    have ht' : ¬ now < p.untilMs := by omega
    rw [power_mult_eq, power_mult_eq]
    simp [specModifierFactor, hap, ht', List.lookup]

/-- Claim C6: Mine fails UnknownResource for an ore outside the catalog and
LockedResource, mutating nothing, when the pickaxe tier is below the ore's
requirement; on success for an ordinary ore the yield added to inventory is
max(1, floor(1 * effective strength multiplier)), doubled with the crit
counter incremented exactly when the crit roll succeeds; on a fresh record
Mine("diamond") fails LockedResource, and a non-critical Mine("coal") with
strength multiplier 1 leaves inventory coal = 11 and mined-total = 1. -/
theorem c6_mine (u : User) (ore : String) (r : ℚ) (b : Nat) (now : Int) :
    (ore ∉ ORES → api_mine u ore r b now = (.error .UnknownResource, u)) ∧
    (ore ∈ ORES → ¬ can_mine u ore →
        api_mine u ore r b now = (.error .LockedResource, u)) ∧
    (ore ∈ ORES → can_mine u ore → ore ≠ "rainbow" → ore ≠ "goldrush" →
        (api_mine u ore r b now).1 = .ok .mined ∧
        lookupD (api_mine u ore r b now).2.inventory ore 0 =
          lookupD u.inventory ore 0 +
            (if r * 100 < crit_chance u then 2 else 1) *
              max 1 ⌊(1 : ℚ) * power_mult u "strength" now⌋ ∧
        (api_mine u ore r b now).2.stats.oresMined =
          u.stats.oresMined +
            (if r * 100 < crit_chance u then 2 else 1) *
              max 1 ⌊(1 : ℚ) * power_mult u "strength" now⌋ ∧
        (api_mine u ore r b now).2.stats.crits =
          u.stats.crits + (if r * 100 < crit_chance u then 1 else 0)) ∧
    (api_mine freshUser "diamond" r b now = (.error .LockedResource, freshUser)) ∧
    (power_mult freshUser "strength" now = 1 → ¬ (r * 100 < crit_chance freshUser) →
        lookupD (api_mine freshUser "coal" r b now).2.inventory "coal" 0 = 11 ∧
        (api_mine freshUser "coal" r b now).2.stats.oresMined = 1) := by
  refine ⟨?_, ?_, ?_, ?_, ?_⟩
  · intro h; simp [api_mine, h]
  · intro h hc; simp [api_mine, h, hc]
  · intro h hc hr hg
    by_cases hcr : r * 100 < crit_chance u <;>
      simp [api_mine, h, hc, hr, hg, hcr, add_ore, lookupD_setKey_self,
        max_one_pyInt] <;>
      ring
  · have hcm : ¬ can_mine freshUser "diamond" := by decide
    have hmem : ("diamond" : String) ∈ ORES := by decide
    simp [api_mine, hmem, hcm]
  · intro h1 h2
    have hmem : ("coal" : String) ∈ ORES := by decide
    have hcm : can_mine freshUser "coal" := by decide
    have hco : ("coal" : String) ≠ "rainbow" := by decide
    have hgo : ("coal" : String) ≠ "goldrush" := by decide
    have hq : max 1 (pyInt (1 * power_mult freshUser "strength" now)) = 1 := by
      rw [h1]; norm_num [pyInt]
    refine ⟨?_, ?_⟩ <;>
    · simp only [api_mine, if_neg (not_not_intro hmem), if_neg (not_not_intro hcm),
        if_neg h2, if_neg hco, if_neg hgo, hq]
      decide

theorem applyPowerup_used_codes (u : User) (name : String) (now : Int) :
    (applyPowerup u name now).used_codes = u.used_codes := by
  unfold applyPowerup
  split <;> rfl

/-- Claim C3: RedeemCode upper-cases and trims the code, fails CodeRequired
when the result is empty, fails CodeAlreadyUsed with no state change when
the normalized code is already used, fails InvalidCode when it is not in
the reward table; on success the normalized code is appended to used-codes,
so a successful redemption of a code occurs at most once and the code
appears in used-codes at most once. -/
theorem c3_redeem_once (u : User) (code : String) (now now2 : Int) :
    (pyStrip (pyUpper code) = "" →
        codes_redeem u code now = (.error .CodeRequired, u)) ∧
    (pyStrip (pyUpper code) ≠ "" → pyStrip (pyUpper code) ∈ u.used_codes →
        codes_redeem u code now = (.error .CodeAlreadyUsed, u)) ∧
    (pyStrip (pyUpper code) ≠ "" → pyStrip (pyUpper code) ∉ u.used_codes →
        List.lookup (pyStrip (pyUpper code)) CODE_REWARDS = none →
        codes_redeem u code now = (.error .InvalidCode, u)) ∧
    (∀ o, (codes_redeem u code now).1 = .ok o →
        (codes_redeem u code now).2.used_codes =
            u.used_codes ++ [pyStrip (pyUpper code)] ∧
        pyStrip (pyUpper code) ∉ u.used_codes ∧
        codes_redeem (codes_redeem u code now).2 code now2 =
          (.error .CodeAlreadyUsed, (codes_redeem u code now).2)) ∧
    (List.count (pyStrip (pyUpper code)) u.used_codes ≤ 1 →
        List.count (pyStrip (pyUpper code))
          ((codes_redeem u code now).2.used_codes) ≤ 1) := by
  generalize hraw : pyStrip (pyUpper code) = raw
  have hbody : ∀ (w : User), codes_redeem w code now2 =
      (if raw = "" then (.error .CodeRequired, w)
       else if raw ∈ w.used_codes then (.error .CodeAlreadyUsed, w)
       else (codes_redeem w code now2)) := by
    intro w
    by_cases h0 : raw = ""
    · simp [codes_redeem, hraw, h0]
    · by_cases h1 : raw ∈ w.used_codes <;>
        simp [codes_redeem, hraw, h0, h1]
  refine ⟨?_, ?_, ?_, ?_, ?_⟩
  · intro h0
    simp [codes_redeem, hraw, h0]
  · intro h0 h1
    simp [codes_redeem, hraw, h0, h1]
  · intro h0 h1 hl
    simp [codes_redeem, hraw, h0, h1, hl]
  · intro o hok
    by_cases h0 : raw = ""
    · simp [codes_redeem, hraw, h0] at hok
    · by_cases h1 : raw ∈ u.used_codes
      · simp [codes_redeem, hraw, h0, h1] at hok
      · cases hl : List.lookup raw CODE_REWARDS with
        | none => simp [codes_redeem, hraw, h0, h1, hl] at hok
        | some reward =>
          have huc : (codes_redeem u code now).2.used_codes =
              u.used_codes ++ [raw] := by
            simp only [codes_redeem, hraw, if_neg h0, if_neg h1, hl]
            simp [apply_ite User.used_codes, applyPowerup_used_codes, ite_self]
          refine ⟨huc, h1, ?_⟩
          have hmem : raw ∈ (codes_redeem u code now).2.used_codes := by
            rw [huc]
            exact List.mem_append_right _ (List.mem_singleton_self raw)
          rw [hbody]
          simp [hmem, h0]
  · intro hcnt
    by_cases h0 : raw = ""
    · simpa [codes_redeem, hraw, h0] using hcnt
    · by_cases h1 : raw ∈ u.used_codes
      · simpa [codes_redeem, hraw, h0, h1] using hcnt
      · cases hl : List.lookup raw CODE_REWARDS with
        | none => simpa [codes_redeem, hraw, h0, h1, hl] using hcnt
        | some reward =>
          have huc : (codes_redeem u code now).2.used_codes =
              u.used_codes ++ [raw] := by
            simp only [codes_redeem, hraw, if_neg h0, if_neg h1, hl]
            simp [apply_ite User.used_codes, applyPowerup_used_codes, ite_self]
          rw [huc]
          have h0c : List.count raw u.used_codes = 0 := List.count_eq_zero.mpr h1
          simp [List.count_append, h0c]

theorem applyPowerup_pickaxe (u : User) (name : String) (now : Int) :
    (applyPowerup u name now).pickaxe = u.pickaxe := by
  unfold applyPowerup
  split <;> rfl

theorem applyPowerup_pets (u : User) (name : String) (now : Int) :
    (applyPowerup u name now).pets = u.pets := by
  unfold applyPowerup
  split <;> rfl

/-- Claim C1: for every action handler, record, time and parameters, a
classified failure leaves the record unchanged in every field. -/
theorem c1_failure_frame (now : Int) (a : Action) (u : User) (e : Err)
    (h : (step now a u).1 = .error e) : (step now a u).2 = u := by
  cases a with
  | mine ore r b =>
    simp only [step, api_mine] at h ⊢
    split_ifs at h ⊢ <;> simp_all
  | sellAll =>
    simp [step, sell_all] at h
  | upgradePickaxe tier =>
    simp only [step] at h ⊢
    cases hl : List.lookup tier PICKAXE_COSTS with
    | none => simp [shop_pickaxe, hl]
    | some cost =>
      simp only [shop_pickaxe, hl] at h ⊢
      split_ifs at h ⊢ <;> simp_all
  | buyPowerup name =>
    simp only [step] at h ⊢
    cases hl : List.lookup name POWERUPS with
    | none => simp [shop_powerup, hl]
    | some eff =>
      simp only [shop_powerup, hl] at h ⊢
      split_ifs at h ⊢ <;> simp_all
  | petSpin free pet =>
    simp only [step, pets_spin] at h ⊢
    split_ifs at h ⊢ <;> simp_all
  | redeemCode code =>
    simp only [step] at h ⊢
    by_cases h0 : pyStrip (pyUpper code) = ""
    · simp [codes_redeem, h0]
    · by_cases h1 : pyStrip (pyUpper code) ∈ u.used_codes
      · simp [codes_redeem, h0, h1]
      · cases hl : List.lookup (pyStrip (pyUpper code)) CODE_REWARDS with
        | none => simp [codes_redeem, h0, h1, hl]
        | some reward => simp [codes_redeem, h0, h1, hl] at h
  | claimDaily pick =>
    simp only [step, daily_claim] at h ⊢
    split_ifs at h ⊢ <;> simp_all
  | adminLogin code =>
    simp only [step, admin_login] at h ⊢
    split_ifs at h ⊢ <;> simp_all
  | adminMoney =>
    simp only [step, admin_money] at h ⊢
    split_ifs at h ⊢ <;> simp_all
  | adminPowerups =>
    simp only [step, admin_powerups] at h ⊢
    split_ifs at h ⊢ <;> simp_all

theorem tier_index_step_mono (now : Int) (a : Action) (u : User) :
    tier_index u.pickaxe ≤ tier_index ((step now a u).2.pickaxe) := by
  cases a with
  | mine ore r b =>
    simp only [step, api_mine]
    split_ifs <;> simp [add_ore]
  | sellAll =>
    simp [step, sell_all]
  | upgradePickaxe tier =>
    simp only [step]
    cases hl : List.lookup tier PICKAXE_COSTS with
    | none => simp [shop_pickaxe, hl]
    | some cost =>
      simp only [shop_pickaxe, hl]
      split_ifs with h1 h2
      · simp
      · simp
      · simp
        omega
  | buyPowerup name =>
    simp only [step]
    cases hl : List.lookup name POWERUPS with
    | none => simp [shop_powerup, hl]
    | some eff =>
      simp only [shop_powerup, hl]
      split_ifs <;> simp
  | petSpin free pet =>
    simp only [step, pets_spin]
    split_ifs <;> simp
  | redeemCode code =>
    simp only [step]
    by_cases h0 : pyStrip (pyUpper code) = ""
    · simp [codes_redeem, h0]
    · by_cases h1 : pyStrip (pyUpper code) ∈ u.used_codes
      · simp [codes_redeem, h0, h1]
      · cases hl : List.lookup (pyStrip (pyUpper code)) CODE_REWARDS with
        | none => simp [codes_redeem, h0, h1, hl]
        | some reward =>
          simp [codes_redeem, h0, h1, hl, apply_ite User.pickaxe,
            applyPowerup_pickaxe, ite_self]
  | claimDaily pick =>
    simp only [step, daily_claim]
    split_ifs <;> simp
  | adminLogin code =>
    simp only [step, admin_login]
    split_ifs <;> simp
  | adminMoney =>
    simp only [step, admin_money]
    split_ifs <;> simp
  | adminPowerups =>
    simp only [step, admin_powerups]
    split_ifs <;> simp

/-- Claim C7: across every sequence of engine actions on one record, the
equipment tier index in the catalog order never decreases. -/
theorem c7_tier_monotone (l : List (Int × Action)) (u : User) :
    tier_index u.pickaxe ≤ tier_index ((runSeq l u).pickaxe) := by
  induction l generalizing u with
  | nil => simp [runSeq]
  | cons p rest ih =>
    obtain ⟨t, a⟩ := p
    exact le_trans (tier_index_step_mono t a u) (ih (step t a u).2)

theorem step_pets_nodup (now : Int) (a : Action) (u : User)
    (h : (u.pets.map Pet.id).Nodup) :
    (((step now a u).2.pets).map Pet.id).Nodup := by
  cases a with
  | mine ore r b =>
    simp only [step, api_mine]
    split_ifs <;> simp [add_ore, h]
  | sellAll =>
    simp [step, sell_all, h]
  | upgradePickaxe tier =>
    simp only [step]
    cases hl : List.lookup tier PICKAXE_COSTS with
    | none => simp [shop_pickaxe, hl, h]
    | some cost =>
      simp only [shop_pickaxe, hl]
      split_ifs <;> simp [h]
  | buyPowerup name =>
    simp only [step]
    cases hl : List.lookup name POWERUPS with
    | none => simp [shop_powerup, hl, h]
    | some eff =>
      simp only [shop_powerup, hl]
      split_ifs <;> simp [h]
  | petSpin free pet =>
    simp only [step, pets_spin]
    by_cases hg : u.silver < 150 ∧ free = false
    · simp [hg, h]
    · have hpets : ((if free then u
          else {u with silver := u.silver - 150,
                       stats := {u.stats with
                         silverSpent := u.stats.silverSpent + 150}}).pets) = u.pets := by
        split <;> rfl
      simp only [if_neg hg, hpets]
      by_cases hdup : ∃ p ∈ u.pets, p.id = pet.id
      · simp [hdup, hpets, h]
      · have hnm : pet.id ∉ u.pets.map Pet.id := by
          simp only [List.mem_map]
          rintro ⟨p, hp, hid⟩
          exact hdup ⟨p, hp, hid⟩
        simp [hdup, hpets, List.nodup_append, h, hnm]
  | redeemCode code =>
    simp only [step]
    by_cases h0 : pyStrip (pyUpper code) = ""
    · simp [codes_redeem, h0, h]
    · by_cases h1 : pyStrip (pyUpper code) ∈ u.used_codes
      · simp [codes_redeem, h0, h1, h]
      · cases hl : List.lookup (pyStrip (pyUpper code)) CODE_REWARDS with
        | none => simp [codes_redeem, h0, h1, hl, h]
        | some reward =>
          simp [codes_redeem, h0, h1, hl, apply_ite User.pets,
            applyPowerup_pets, ite_self, h]
  | claimDaily pick =>
    simp only [step, daily_claim]
    split_ifs <;> simp [h]
  | adminLogin code =>
    simp only [step, admin_login]
    split_ifs <;> simp [h]
  | adminMoney =>
    simp only [step, admin_money]
    split_ifs <;> simp [h]
  | adminPowerups =>
    simp only [step, admin_powerups]
    split_ifs <;> simp [h]

/-- Claim C8: a RollCompanion call that draws an already-owned companion
leaves the owned set unchanged and credits a fixed 50-silver refund;
otherwise the companion is added; consequently across any sequence of
actions each companion identity occurs in the owned set at most once. -/
theorem c8_companion_unique :
    (∀ (u : User) (free : Bool) (pet : Pet), (free = true ∨ 150 ≤ u.silver) →
      ((∃ p ∈ u.pets, p.id = pet.id) →
        (pets_spin u free pet).2.pets = u.pets ∧
        (pets_spin u free pet).2.silver =
          (if free then u.silver else u.silver - 150) + 50) ∧
      ((¬ ∃ p ∈ u.pets, p.id = pet.id) →
        (pets_spin u free pet).2.pets = u.pets ++ [pet])) ∧
    (∀ (l : List (Int × Action)) (u : User),
      (u.pets.map Pet.id).Nodup → ((runSeq l u).pets.map Pet.id).Nodup) := by
  constructor
  · intro u free pet hf
    have hs : free = false → ¬ u.silver < 150 := by
      intro hfalse
      rcases hf with hf | hf
      · rw [hfalse] at hf; exact absurd hf (by simp)
      · omega
    constructor
    · intro hdup
      cases free with
      | true => simp [pets_spin, hdup]
      | false => simp [pets_spin, hs rfl, hdup]
    · intro hdup
      cases free with
      | true => simp [pets_spin, hdup]
      | false => simp [pets_spin, hs rfl, hdup]
  · intro l
    induction l with
    | nil => intro u h; simpa [runSeq] using h
    | cons p rest ih =>
      intro u h
      obtain ⟨t, a⟩ := p
      exact ih (step t a u).2 (step_pets_nodup t a u h)

/-! ### SellAll fold lemmas -/

theorem sellStep_nonneg (acc : List (String × Int) × Int) (ov : String × Int)
    (h : ∀ k, 0 ≤ lookupD acc.1 k 0) : ∀ k, 0 ≤ lookupD (sellStep acc ov).1 k 0 := by
  intro k
  unfold sellStep
  by_cases hg : ov.1 = "goldrush"
  · rw [if_pos hg]; exact h k
  · rw [if_neg hg]
    by_cases hq : 0 < lookupD acc.1 ov.1 0
    · rw [if_pos hq]
      dsimp only
      by_cases hk : k = ov.1
      · subst hk; rw [lookupD_setKey_self]
      · rw [lookupD_setKey_ne _ _ _ _ _ hk]; exact h k
    · rw [if_neg hq]; exact h k

theorem sellStep_snd (acc : List (String × Int) × Int) (ov : String × Int)
    (hnn : ∀ k, 0 ≤ lookupD acc.1 k 0) :
    (sellStep acc ov).2 =
      acc.2 + (if ov.1 = "goldrush" then 0 else lookupD acc.1 ov.1 0 * ov.2) := by
  unfold sellStep
  by_cases hg : ov.1 = "goldrush"
  · rw [if_pos hg, if_pos hg]; omega
  · rw [if_neg hg, if_neg hg]
    by_cases hq : 0 < lookupD acc.1 ov.1 0
    · rw [if_pos hq]
    · rw [if_neg hq]
      have h1 := hnn ov.1
      have hz : lookupD acc.1 ov.1 0 = 0 := by omega
      rw [hz]
      simp

theorem sellFold_lookup_other (l : List (String × Int))
    (acc : List (String × Int) × Int) (o : String)
    (ho : ∀ ov ∈ l, ov.1 = o → o = "goldrush") :
    List.lookup o (List.foldl sellStep acc l).1 = List.lookup o acc.1 := by
  induction l generalizing acc with
  | nil => rfl
  | cons a t ih =>
    rw [List.foldl_cons,
      ih (sellStep acc a) (fun x hx hxo => ho x (List.mem_cons_of_mem _ hx) hxo)]
    unfold sellStep
    by_cases hg : a.1 = "goldrush"
    · rw [if_pos hg]
    · rw [if_neg hg]
      by_cases hq : 0 < lookupD acc.1 a.1 0
      · rw [if_pos hq]
        dsimp only
        have hne : o ≠ a.1 := by
          intro he
          exact hg (he ▸ ho a (List.mem_cons_self a t) he.symm)
        exact lookup_setKey_ne _ _ _ _ hne
      · rw [if_neg hq]


theorem gainSum_congr (inv1 inv2 : List (String × Int)) (l : List (String × Int))
    (h : ∀ ov ∈ l, lookupD inv1 ov.1 0 = lookupD inv2 ov.1 0) :
    gainSum inv1 l = gainSum inv2 l := by
  induction l with
  | nil => rfl
  | cons a t ih =>
    unfold gainSum
    rw [h a (List.mem_cons_self a t),
      ih (fun x hx => h x (List.mem_cons_of_mem _ hx))]

theorem sellFold_gain (l : List (String × Int)) (acc : List (String × Int) × Int)
    (hnd : (l.map Prod.fst).Nodup) (hnn : ∀ k, 0 ≤ lookupD acc.1 k 0) :
    (List.foldl sellStep acc l).2 = acc.2 + gainSum acc.1 l := by
  induction l generalizing acc with
  | nil => simp [gainSum]
  | cons a t ih =>
    rw [List.map_cons, List.nodup_cons] at hnd
    obtain ⟨hna, hndt⟩ := hnd
    rw [List.foldl_cons, ih (sellStep acc a) hndt (sellStep_nonneg acc a hnn)]
    have hagree : ∀ ov ∈ t, lookupD (sellStep acc a).1 ov.1 0 = lookupD acc.1 ov.1 0 := by
      intro ov hov
      unfold sellStep
      by_cases hg : a.1 = "goldrush"
      · rw [if_pos hg]
      · rw [if_neg hg]
        by_cases hq : 0 < lookupD acc.1 a.1 0
        · rw [if_pos hq]
          dsimp only
          apply lookupD_setKey_ne
          intro he
          exact hna (he ▸ List.mem_map_of_mem Prod.fst hov)
        · rw [if_neg hq]
    rw [gainSum_congr _ _ t hagree, sellStep_snd acc a hnn]
    simp only [gainSum]
    omega

theorem sellFold_zeroed (l : List (String × Int)) (acc : List (String × Int) × Int)
    (hnd : (l.map Prod.fst).Nodup) (hnn : ∀ k, 0 ≤ lookupD acc.1 k 0) :
    ∀ ov ∈ l, ov.1 ≠ "goldrush" →
      lookupD (List.foldl sellStep acc l).1 ov.1 0 = 0 := by
  induction l generalizing acc with
  | nil => intro ov h; exact absurd h (List.not_mem_nil ov)
  | cons a t ih =>
    rw [List.map_cons, List.nodup_cons] at hnd
    obtain ⟨hna, hndt⟩ := hnd
    intro ov hov hng
    rw [List.foldl_cons]
    rcases List.mem_cons.mp hov with he | hmem
    · rw [he] at hng ⊢
      have h0 : lookupD (sellStep acc a).1 a.1 0 = 0 := by
        unfold sellStep
        rw [if_neg hng]
        by_cases hq : 0 < lookupD acc.1 a.1 0
        · rw [if_pos hq]
          dsimp only
          rw [lookupD_setKey_self]
        · rw [if_neg hq]
          have h1 := hnn a.1
          omega
      have hto : ∀ x ∈ t, x.1 = a.1 → a.1 = "goldrush" := by
        intro x hx hxe
        exact absurd (hxe ▸ List.mem_map_of_mem Prod.fst hx) hna
      unfold lookupD
      rw [sellFold_lookup_other t (sellStep acc a) a.1 hto]
      exact h0
    · exact ih (sellStep acc a) hndt (sellStep_nonneg acc a hnn) ov hmem hng


/-- Claim C4: SellAll zeroes the held quantity of every ore with a positive
sale value, leaves the zero-valued goldrush ore untouched, credits exactly
floor((sum of quantity times sale value) times the sell multiplier) to the
balance, and increments the currency-earned statistic by the same floored
amount. -/
theorem c4_sell_all (u : User)
    (hinv : ∀ kv ∈ u.inventory, 0 ≤ kv.2)
    (hpets : ∀ pt ∈ u.pets, ∀ e ∈ pt.effect, 0 ≤ e.2) :
    (sell_all u).2.silver = u.silver + ⌊(specSellTotal u : ℚ) * sell_mult u⌋ ∧
    (sell_all u).2.stats.silverEarned =
      u.stats.silverEarned + ⌊(specSellTotal u : ℚ) * sell_mult u⌋ ∧
    (∀ ov ∈ ORE_VALUES, 0 < ov.2 → lookupD (sell_all u).2.inventory ov.1 0 = 0) ∧
    List.lookup "goldrush" (sell_all u).2.inventory =
      List.lookup "goldrush" u.inventory := by
  have hnn : ∀ k, 0 ≤ lookupD u.inventory k 0 := lookupD_nonneg hinv
  have hnd : (ORE_VALUES.map Prod.fst).Nodup := by decide
  have hgain : (List.foldl sellStep (u.inventory, 0) ORE_VALUES).2 =
      gainSum u.inventory ORE_VALUES := by
    have h := sellFold_gain ORE_VALUES (u.inventory, 0) hnd hnn
    simpa using h
  have hspec : gainSum u.inventory ORE_VALUES = specSellTotal u := by
    simp [gainSum, specSellTotal, ORE_VALUES]
    ring
  have htot : 0 ≤ specSellTotal u := by
    rw [← hspec]
    have h1 := hnn "coal"
    have h2 := hnn "copper"
    have h3 := hnn "bronze"
    have h4 := hnn "silver"
    have h5 := hnn "gold"
    have h6 := hnn "diamond"
    have h7 := hnn "emerald"
    have h8 := hnn "rainbow"
    simp [gainSum, ORE_VALUES]
    omega
  have hm : 0 ≤ sell_mult u := sell_mult_nonneg hpets
  have hfloor : pyInt (((List.foldl sellStep (u.inventory, 0) ORE_VALUES).2 : ℚ) *
      sell_mult u) = ⌊(specSellTotal u : ℚ) * sell_mult u⌋ := by
    rw [hgain, hspec]
    exact pyInt_eq_floor (mul_nonneg (by exact_mod_cast htot) hm)
  refine ⟨?_, ?_, ?_, ?_⟩
  · simp only [sell_all]
    simpa using hfloor
  · simp only [sell_all]
    simpa using hfloor
  · intro ov hov hpos
    have hng : ov.1 ≠ "goldrush" := by
      revert hpos
      fin_cases hov <;> decide
    have hz := sellFold_zeroed ORE_VALUES (u.inventory, 0) hnd hnn ov hov hng
    simpa [sell_all] using hz
  · have hk := sellFold_lookup_other ORE_VALUES (u.inventory, 0) "goldrush"
      (fun _ _ _ => rfl)
    simpa [sell_all] using hk


/-! ### Witnesses -/

theorem c1_witness :
    (step 0 (Action.upgradePickaxe "obsidian") freshUser).1 =
      Except.error Err.UnknownTier ∧
    (step 0 (Action.upgradePickaxe "obsidian") freshUser).2 = freshUser :=
  ⟨by decide, c1_failure_frame 0 (Action.upgradePickaxe "obsidian") freshUser
    Err.UnknownTier (by decide)⟩

theorem c2_witness :
    List.lookup "copper" PICKAXE_COSTS = some [("coal", 20)] ∧
    tier_index coalUser.pickaxe < tier_index "copper" ∧
    (shop_pickaxe coalUser "copper").1 = .ok .purchased ∧
    (shop_pickaxe coalUser "copper").2.pickaxe = "copper" ∧
    lookupD (shop_pickaxe coalUser "copper").2.inventory "coal" 0 = 0 := by
  have h := c2_upgrade_equipment coalUser "copper" [("coal", 20)] (by decide)
  have hs := (h.2 (by decide)).2 (by decide)
  refine ⟨by decide, by decide, hs.1, hs.2.1, ?_⟩
  rw [hs.2.2 "coal"]
  decide

theorem c3_witness :
    pyStrip (pyUpper "welcome ") = "WELCOME" ∧
    (codes_redeem freshUser "welcome " 0).1 =
      .ok (.redeemed "Welcome bonus: +200 Silver") ∧
    (codes_redeem freshUser "welcome " 0).2.used_codes = ["WELCOME"] ∧
    codes_redeem (codes_redeem freshUser "welcome " 0).2 "welcome " 5 =
      (.error .CodeAlreadyUsed, (codes_redeem freshUser "welcome " 0).2) := by
  have h := (c3_redeem_once freshUser "welcome " 0 5).2.2.2.1
    (.redeemed "Welcome bonus: +200 Silver") (by decide)
  refine ⟨by decide, by decide, ?_, h.2.2⟩
  rw [h.1]
  decide

theorem c4_witness :
    (∀ kv ∈ parrotUser.inventory, 0 ≤ kv.2) ∧
    (sell_all parrotUser).2.silver = 11 ∧
    lookupD (sell_all parrotUser).2.inventory "coal" 0 = 0 := by
  have hinv : ∀ kv ∈ parrotUser.inventory, 0 ≤ kv.2 := by decide
  have hpets : ∀ pt ∈ parrotUser.pets, ∀ e ∈ pt.effect, 0 ≤ e.2 := by
    norm_num [parrotUser, freshUser]
  have h := c4_sell_all parrotUser hinv hpets
  have e1 : specSellTotal parrotUser = 10 := by decide
  have e2 : sell_mult parrotUser = 11 / 10 := by
    norm_num [sell_mult, parrotUser, freshUser, List.foldl, lookupD, List.lookup]
  refine ⟨hinv, ?_, h.2.2.1 ("coal", 1) (by decide) (by decide)⟩
  rw [h.1, e1, e2]
  have e3 : ((10 : Int) : ℚ) * (11 / 10) = ((11 : Int) : ℚ) := by norm_num
  rw [e3, Int.floor_intCast]
  norm_num [parrotUser, freshUser]

theorem c5_witness :
    (("strength" : String) = "strength" ∨ ("strength" : String) = "luck") ∧
    power_mult parrotUser "strength" 5 =
      specEffectiveMultiplier parrotUser "strength" 5 :=
  ⟨Or.inl rfl, (c5_effective_multiplier parrotUser "strength" 5).1 (Or.inl rfl)⟩

theorem c6_witness :
    power_mult freshUser "strength" 0 = 1 ∧
    ¬ ((0 : ℚ) * 100 < crit_chance freshUser) ∧
    lookupD (api_mine freshUser "coal" 0 0 0).2.inventory "coal" 0 = 11 ∧
    (api_mine freshUser "coal" 0 0 0).2.stats.oresMined = 1 := by
  have hpm : power_mult freshUser "strength" 0 = 1 := by
    norm_num [power_mult, freshUser, List.lookup]
  have hcc : crit_chance freshUser = 0 := by
    norm_num [crit_chance, freshUser, SWORDS, lookupD, List.lookup]
  have hncrit : ¬ ((0 : ℚ) * 100 < crit_chance freshUser) := by
    rw [hcc]
    norm_num
  have h := (c6_mine freshUser "coal" 0 0 0).2.2.2.2 hpm hncrit
  exact ⟨hpm, hncrit, h.1, h.2⟩

theorem c8_witness :
    150 ≤ moleOwner.silver ∧
    (∃ p ∈ moleOwner.pets, p.id = molePet.id) ∧
    (pets_spin moleOwner false molePet).2.pets = moleOwner.pets ∧
    (pets_spin moleOwner false molePet).2.silver = 100 := by
  have h := (c8_companion_unique.1 moleOwner false molePet
    (Or.inr (by decide))).1 (by decide)
  refine ⟨by decide, by decide, h.1, ?_⟩
  rw [h.2]
  decide

theorem c9_witness :
    ("GOLDRUSH" ∉ freshUser.used_codes) ∧
    codes_redeem freshUser "GOLDRUSH" 0 =
      (.ok (.redeemed "Gold Rush for 3 min!"),
       {freshUser with used_codes := freshUser.used_codes ++ ["GOLDRUSH"]}) :=
  ⟨by decide, c9_goldrush_marks_code_only freshUser 0 (by decide)⟩

theorem c10_witness :
    (boostedUser.last_daily = 0 ∨ day_ms ≤ 0 - boostedUser.last_daily) ∧
    List.lookup "strength" (daily_claim boostedUser true 0).2.active_powerups =
      some ⟨2, 60000⟩ := by
  have h := c10_daily_truncates_modifier boostedUser true 0 (Or.inl rfl)
  refine ⟨Or.inl rfl, ?_⟩
  have h2 := h.2.2.1
  simpa using h2

end MinerCo
